import Mathlib

/-!
Verification model of the car-racing environment
(`src/movement_primitives/car_racing.py`).

The embedding is shallow: Python floats are modelled by `ℚ` (all the
arithmetic the claims depend on — per-step penalty, tile credit,
fixed -100 penalty, index arithmetic — is exact), Python `None` /
missing values by `Option`, and raising exceptions by `Option`/`Except`
results.  Trigonometric functions (`math.cos`, `math.sin`) are external
library calls whose values never matter to the claims; they are passed
in as function parameters `cosF sinF : ℚ → ℚ`.
-/

namespace CarRacingSpec

/-! ### Module-level constants (source lines 48-68, evaluated at import
time with `SCALE = 10.0`) -/

def SCALE : ℚ := 10

def TRACK_RAD : ℚ := 900 / SCALE

def PLAYFIELD : ℚ := 2000 / SCALE

def TRACK_DETAIL_STEP : ℚ := 21 / SCALE

def TRACK_TURN_RATE : ℚ := 31 / 100

def CHECKPOINTS : ℕ := 12

/-- `math.pi` as the IEEE-754 double used by CPython. -/
def mathPi : ℚ := 884279719003555 / 281474976710656

/-! ### Data model -/

/-- One entry of the `track` list: the tuple
`(alpha, prev_beta*0.5 + beta*0.5, x, y)` appended by `_create_track`. -/
structure TrackPoint where
  alpha : ℚ
  beta : ℚ
  x : ℚ
  y : ℚ
  deriving DecidableEq, Inhabited, Repr

/-- A road tile created by `_create_track` (source lines 468-498): the
stable index `t.idx = i`, the `road_visited` flag, `road_friction = 1.0`,
the display color, and the two track points `track[i]`, `track[i-1]` the
tile quad is built from (the four quad vertices are fixed functions of
these two points, `TRACK_WIDTH` and the external trig library). -/
structure RoadTile where
  idx : ℤ
  road_visited : Bool
  road_friction : ℚ
  color : ℚ × ℚ × ℚ
  p1 : TrackPoint
  p2 : TrackPoint
  deriving DecidableEq, Inhabited, Repr

/-- The mutable episode fields of the `CarRacing` environment read and
written by `FrictionDetector._contact` and `CarRacing.step`, plus the
attribute `env_new_lap` that `_contact` creates **on the detector
object** (source line 154 writes `self.env_new_lap`, not
`self.env.new_lap`); `step` only ever reads `new_lap`. -/
structure EnvSt where
  reward : ℚ
  prev_reward : ℚ
  tile_visited_count : ℕ
  new_lap : Bool
  env_new_lap : Bool
  trackLen : ℕ
  road_color : ℚ × ℚ × ℚ
  deriving DecidableEq, Repr

/-- Environment state together with the road tiles and the car's
`tiles` set (stored as the list of road indices currently in contact). -/
structure World where
  env : EnvSt
  road : List RoadTile
  carTiles : List ℕ
  deriving DecidableEq, Repr

/-! ### FrictionDetector._contact (source lines 123-156) -/

/-- Effect of a begin-contact event on the environment fields and the
tile itself (source lines 137-154): the tile color is refreshed from
`env.road_color / 255`; if the tile was not yet visited it is marked
visited, `1000/len(track)` reward is credited and the visited count is
incremented; if moreover the tile has stable index 0 and the visited
fraction exceeds `lap_complete_percent`, the detector sets its own
`env_new_lap` attribute (faithful to the source, which writes
`self.env_new_lap` instead of `self.env.new_lap`). -/
def beginContactTile (lap_complete_percent : ℚ) (e : EnvSt) (t : RoadTile) :
    EnvSt × RoadTile :=
  let t := { t with color := (e.road_color.1 / 255, e.road_color.2.1 / 255,
                              e.road_color.2.2 / 255) }
  if t.road_visited then (e, t)
  else
    let t := { t with road_visited := true }
    let e := { e with
      reward := e.reward + 1000 / (e.trackLen : ℚ),
      tile_visited_count := e.tile_visited_count + 1 }
    if t.idx = 0 ∧ (e.tile_visited_count : ℚ) / (e.trackLen : ℚ) > lap_complete_percent then
      ({ e with env_new_lap := true }, t)
    else (e, t)

/-- A begin-contact callback between the car and road tile number `j`
(position in `self.road`): the tile is added to the car's `tiles` set and
`beginContactTile` runs. A `j` with no tile models a contact whose bodies
carry no `road_friction` tag (the early returns of `_contact`). -/
def beginContact (lcp : ℚ) (w : World) (j : ℕ) : World :=
  match w.road.get? j with
  | none => w
  | some t =>
    let carTiles := if j ∈ w.carTiles then w.carTiles else j :: w.carTiles
    let et := beginContactTile lcp w.env t
    { env := et.1, road := w.road.set j et.2, carTiles := carTiles }

/-- An end-contact callback (source lines 155-156): the tile color is
still refreshed, and the tile is removed from the car's `tiles` set. -/
def endContact (w : World) (j : ℕ) : World :=
  match w.road.get? j with
  | none => w
  | some t =>
    let t := { t with color := (w.env.road_color.1 / 255, w.env.road_color.2.1 / 255,
                                w.env.road_color.2.2 / 255) }
    { env := w.env, road := w.road.set j t, carTiles := w.carTiles.erase j }

/-! ### CarRacing.step with an action (source lines 564-592) -/

/-- Python's `abs` on a (rational-modelled) float. -/
def pyAbs (q : ℚ) : ℚ := if q < 0 then -q else q

/-- The `(step_reward, done)` part of the 4-tuple returned by `step`. -/
structure StepResult where
  step_reward : ℚ
  done : Bool
  deriving DecidableEq, Repr

/-- One `CarRacing.step` call with an action present. `contacts` is the
sequence of begin-contact tile indices the physics backend delivers
during `world.Step`, and `pos` is `self.car.hull.position` after the
physics advance. Mirrors source lines 576-592: per-step penalty `-0.1`,
`step_reward = reward - prev_reward`, snapshot update, termination when
all tiles of `self.track` are visited or `self.new_lap` is set, and the
out-of-bounds branch forcing `done = True` and `step_reward = -100`. -/
def stepAction (lcp : ℚ) (w : World) (contacts : List ℕ) (pos : ℚ × ℚ) :
    World × StepResult :=
  let w := contacts.foldl (beginContact lcp) w
  let e := w.env
  let e := { e with reward := e.reward - 1/10 }
  let step_reward := e.reward - e.prev_reward
  let e := { e with prev_reward := e.reward }
  let done := (e.tile_visited_count == e.trackLen) || e.new_lap
  if pyAbs pos.1 > PLAYFIELD ∨ pyAbs pos.2 > PLAYFIELD then
    ({ w with env := e }, ⟨-100, true⟩)
  else
    ({ w with env := e }, ⟨step_reward, done⟩)

/-- An episode fragment: each action-bearing frame advances `stepAction`
with that frame's contact events and resulting car position. -/
structure Frame where
  contacts : List ℕ
  pos : ℚ × ℚ
  deriving DecidableEq, Repr

/-- Run a sequence of action-bearing frames. -/
def runEpisode (lcp : ℚ) (w : World) : List Frame → World
  | [] => w
  | f :: fs => runEpisode lcp (stepAction lcp w f.contacts f.pos).1 fs

/-- Number of road tiles currently marked visited. -/
def countVisited (road : List RoadTile) : ℕ :=
  road.countP (·.road_visited)

/-! ### Closed-loop extraction (source lines 410-441) -/

/-- `track[i][0] > self.start_alpha and track[i-1][0] <= self.start_alpha`. -/
def passThroughStart (track : List TrackPoint) (sa : ℚ) (i : ℕ) : Bool :=
  decide ((track.getD i default).alpha > sa) &&
    decide ((track.getD (i - 1) default).alpha ≤ sa)

/-- The backward scan of source lines 411-424: `i` is the current index
(already decremented), `i2?` records the first crossing found. Returns
`some (i1, i2)` on the `break`, `none` when `i` reaches 0 (generation
failure). -/
def findLoopAux (track : List TrackPoint) (sa : ℚ) : ℕ → Option ℕ → Option (ℕ × ℕ)
  | 0, _ => none
  | i + 1, i2? =>
    if passThroughStart track sa (i + 1) then
      match i2? with
      | none => findLoopAux track sa i (some (i + 1))
      | some i2 => some (i + 1, i2)
    else findLoopAux track sa i i2?

/-- Scan starts from `i = len(track)` and decrements before the first
test, so the first index examined is `len(track) - 1`. -/
def findLoop (track : List TrackPoint) (sa : ℚ) : Option (ℕ × ℕ) :=
  findLoopAux track sa (track.length - 1) none

/-- The Python slice `track[i1 : i2 - 1]` of source line 430. -/
def keptTrack (track : List TrackPoint) (i1 i2 : ℕ) : List TrackPoint :=
  (track.drop i1).take (i2 - 1 - i1)

/-- The tile count printed by `_create_track` (source line 426):
`"%i-tiles track" % (i2 - i1)`. -/
def reportedTileCount (i1 i2 : ℕ) : ℕ := i2 - i1

/-- Loop extraction followed by the glue test of source lines 432-441.
The source compares `sqrt((fpx*Δx)² + (fpy*Δy)²)` with
`TRACK_DETAIL_STEP`; both sides are nonnegative so the squared
comparison is equivalent. An empty slice raises `IndexError` at
`track[0]` in the source, modelled as `none`. -/
def create_track_finalize (cosF sinF : ℚ → ℚ) (track : List TrackPoint) (sa : ℚ) :
    Option (List TrackPoint) :=
  match findLoop track sa with
  | none => none
  | some (i1, i2) =>
    let tr := keptTrack track i1 i2
    match tr.head?, tr.getLast? with
    | some p0, some pl =>
      let fpx := cosF p0.beta
      let fpy := sinF p0.beta
      if (fpx * (p0.x - pl.x)) ^ 2 + (fpy * (p0.y - pl.y)) ^ 2 >
          TRACK_DETAIL_STEP ^ 2 then none
      else some tr
    | _, _ => none

/-! ### load_checkpoints (source lines 289-306) -/

/-- The loop body of `load_checkpoints` over `c = 0, …, n-1`, carrying
`(checkpoints, start_alpha)` and the remaining iteration count `r`.
Failure (`none`) models the `IndexError` raised when `noise[c]` or
`rad[c]` is accessed (or assigned, for `c ∈ {0, n-1}`) out of range.
The two `if c == …` statements run sequentially, as in the source. -/
def loadCheckpointsAux (cosF sinF : ℚ → ℚ) (n : ℕ) (noise rad : List ℚ) :
    ℕ → ℕ → List (ℚ × ℚ × ℚ) × Option ℚ → Option (List (ℚ × ℚ × ℚ) × Option ℚ)
  | _, 0, acc => some acc
  | c, r + 1, acc =>
    match noise.get? c, rad.get? c with
    | some nc, some rc =>
      let alpha := 2 * mathPi * (c : ℚ) / (n : ℚ) + nc
      let ar := if c = 0 then ((0 : ℚ), 3/2 * TRACK_RAD) else (alpha, rc)
      let ars :=
        if c = n - 1 then
          (2 * mathPi * (c : ℚ) / (n : ℚ), 3/2 * TRACK_RAD,
            some (2 * mathPi * (-(1 : ℚ)/2) / (n : ℚ)))
        else (ar.1, ar.2, acc.2)
      loadCheckpointsAux cosF sinF n noise rad (c + 1) r
        (acc.1 ++ [(ars.1, ars.2.1 * cosF ars.1, ars.2.1 * sinF ars.1)], ars.2.2)
    | _, _ => none

/-- `CarRacing.load_checkpoints(n_checkpoints, path)` with the file
already read and parsed into one float per line: `noise = lines[:n]`,
`rad = lines[-n:]` (Python slices, which never fail), then the
checkpoint loop. Returns the checkpoint list `(alpha, x, y)` and the
recorded `start_alpha`. -/
def load_checkpoints (cosF sinF : ℚ → ℚ) (n : ℕ) (lines : List ℚ) :
    Option (List (ℚ × ℚ × ℚ) × Option ℚ) :=
  loadCheckpointsAux cosF sinF n (lines.take n)
    (lines.drop (lines.length - n)) 0 n ([], none)

/-! ### Scenario table and tile creation (source lines 85-109, 459-529) -/

/-- Errors a `_create_track` call can raise past the generation phase. -/
inductive PyErr where
  | nameError
  | keyError
  | indexError
  deriving DecidableEq, Repr

/-- The `[start, end]` columns of the `corners` table (source lines
85-109), keyed by `corner_num` (`none` models the Python key `None`). -/
def cornersRange (k : Option ℤ) : Option (ℤ × ℤ) :=
  match k with
  | none => some (0, -1)
  | some n =>
    if n = 30 then some (310, 348)
    else if n = 40 then some (0, 35)
    else if n = 50 then some (228, 275)
    else if n = 60 then some (282, 333)
    else if n = 80 then some (116, 169)
    else if n = 85 then some (58, 125)
    else if n = 90 then some (50, 111)
    else if n = 100 then some (281, 345)
    else if n = 110 then some (250, 297)
    else if n = 130 then some (128, 181)
    else if n = 135 then some (145, 210)
    else if n = 140 then some (118, 181)
    else if n = 145 then some (83, 142)
    else if n = 147 then some (252, 310)
    else if n = 150 then some (185, 250)
    else if n = 160 then some (0, 110)
    else if n = 1 ∨ n = 2 ∨ n = 3 ∨ n = 4 ∨ n = 5 then some (0, -1)
    else none

/-- The parameter-file column of the `corners` table, as the version
number of `sim_params_path_v…` (1-5). -/
def cornersPathId (n : ℤ) : Option ℕ :=
  if n = 30 ∨ n = 40 ∨ n = 60 ∨ n = 85 ∨ n = 100 then some 1
  else if n = 90 ∨ n = 110 ∨ n = 130 then some 2
  else if n = 50 ∨ n = 80 ∨ n = 135 ∨ n = 145 then some 3
  else if n = 140 ∨ n = 147 ∨ n = 150 ∨ n = 160 then some 4
  else if n = 1 then some 1
  else if n = 2 then some 2
  else if n = 3 then some 3
  else if n = 4 then some 4
  else if n = 5 then some 5
  else none

/-- The `SCALE` column of the `corners` table for integer keys. -/
def cornersScale (n : ℤ) : ℚ :=
  if n = 100 then 14 else 10

/-- Python indexing `l[i]`, including negative indices. -/
def pyGet (l : List α) (i : ℤ) : Option α :=
  let j := if i < 0 then (l.length : ℤ) + i else i
  if j < 0 then none else l.get? j.toNat

/-- Python `range(a, b)` over integers. -/
def pyRange (a b : ℤ) : List ℤ :=
  (List.range (b - a).toNat).map (fun k => a + Int.ofNat k)

/-- The condition `self.corner_num and self.corner_num > 10` of source
line 464, with Python truthiness (`None` and `0` are falsy). -/
def restrictTiles (selfCorner : Option ℤ) : Bool :=
  match selfCorner with
  | none => false
  | some n => if n = 0 then false else decide (n > 10)

/-- Building one road tile for index `i` (source lines 468-496): reads
`track[i]` and `track[i-1]` (Python indexing, so `i = 0` wraps to the
last point), stores `idx = i`, `road_visited = False`,
`road_friction = 1.0`, and the per-index tinted color
`road_color + 0.01*(i % 3)*255`. -/
def mkRoadTile (road_color : ℚ × ℚ × ℚ) (track : List TrackPoint) (i : ℤ) :
    Except PyErr RoadTile :=
  match pyGet track i, pyGet track (i - 1) with
  | some p1, some p2 =>
    let c : ℚ := 1/100 * ((i % 3 : ℤ) : ℚ) * 255
    .ok ⟨i, false, 1, (road_color.1 + c, road_color.2.1 + c, road_color.2.2 + c),
         p1, p2⟩
  | _, _ => .error .indexError

/-- The tile loop appending to `self.road`, one tile per index. -/
def mapTiles (road_color : ℚ × ℚ × ℚ) (track : List TrackPoint) :
    List ℤ → Except PyErr (List RoadTile)
  | [] => .ok []
  | i :: rest =>
    match mkRoadTile road_color track i with
    | .error e => .error e
    | .ok t =>
      match mapTiles road_color track rest with
      | .error e => .error e
      | .ok ts => .ok (t :: ts)

/-- The iteration range of the tile loop (source lines 464-467).
`selfCorner` is the instance attribute `self.corner_num`;
`globalCorner` is the binding of the module-level global name
`corner_num` (outer `none` = name not defined, which in the source
raises `NameError` at `corners[corner_num]`; inner value = the
script-level value, possibly Python `None`). Line 465 indexes `corners`
with the **global** name, not the instance attribute; a missing key
raises `KeyError`. -/
def tileRange (selfCorner : Option ℤ) (globalCorner : Option (Option ℤ))
    (trackLen : ℕ) : Except PyErr (List ℤ) :=
  if restrictTiles selfCorner then
    match globalCorner with
    | none => .error .nameError
    | some g =>
      match cornersRange g with
      | none => .error .keyError
      | some ab => .ok (pyRange ab.1 ab.2)
  else
    .ok ((List.range trackLen).map Int.ofNat)

/-- The tile-creation phase of `_create_track` (source lines 464-498):
resolve the iteration range, then build one road tile per index. -/
def create_tiles (road_color : ℚ × ℚ × ℚ) (selfCorner : Option ℤ)
    (globalCorner : Option (Option ℤ)) (track : List TrackPoint) :
    Except PyErr (List RoadTile) :=
  match tileRange selfCorner globalCorner track.length with
  | .error e => .error e
  | .ok idxs => mapTiles road_color track idxs

/-- The scenario range start that a successful restricted tile creation
uses (first component of the `corners` entry looked up through the
global `corner_num`). -/
def scenarioStart (globalCorner : Option (Option ℤ)) : ℤ :=
  match globalCorner with
  | none => 0
  | some g => ((cornersRange g).getD (0, 0)).1

/-! ### The `__main__` configuration block (source lines 893-927) and
`CarRacing.__init__` (source lines 223-263) -/

/-- Outcome of the argument-handling block before `CarRacing(...)` is
called. -/
structure MainState where
  warned : Bool
  exited : Bool
  scaleSet : Option ℚ
  simPath : Option ℕ
  cornerArg : Option ℤ
  deriving DecidableEq, Repr

/-- Source lines 904-919: with no argument, `corner_num = None`; with
argument `-1`, `corner_num = None` (and the local `ZOOM` changes); with
a known key, `SCALE` and `sim_params_path` are taken from the table;
with an unknown key, the script prints a warning and then evaluates the
bare expression `exit` — the builtin is referenced but **not called**,
so execution continues with `corner_num` still set to the unknown key
and `sim_params_path = None`. -/
def main_startup (argv1 : Option ℤ) : MainState :=
  match argv1 with
  | none => ⟨false, false, none, none, none⟩
  | some c =>
    if c = -1 then ⟨false, false, none, none, none⟩
    else if (cornersRange (some c)).isSome then
      ⟨false, false, some (cornersScale c), cornersPathId c, some c⟩
    else
      ⟨true, false, none, none, some c⟩

/-- The episode-relevant attributes `CarRacing.__init__` sets. The
constructor stores `corner_num` and `sim_params_path` without
consulting the `corners` table and performs no validation, so it is a
total function. -/
structure InitEnv where
  corner_num : Option ℤ
  sim_params_path : Option ℕ
  reward : ℚ
  prev_reward : ℚ
  new_lap : Bool
  isopen : Bool
  deriving DecidableEq, Repr

/-- `CarRacing.__init__(corner_num=…, sim_params_path=…)`. -/
def carRacingInit (cn : Option ℤ) (sp : Option ℕ) : InitEnv :=
  ⟨cn, sp, 0, 0, false, true⟩

/-! ### Concrete inputs used by the witnesses and counterexamples -/

/-- A fresh (unvisited) simulation tile with stable index `i`. -/
def simTile (i : ℤ) (v : Bool) : RoadTile :=
  ⟨i, v, 1, (102/255, 102/255, 102/255), ⟨0, 0, 0, 0⟩, ⟨0, 0, 0, 0⟩⟩

/-- A 4-tile world in which tiles 1 and 2 are already visited, tile 0 is
not, with `lap_complete_percent`-relevant counters mid-episode. -/
def c1World : World :=
  { env := { reward := 500, prev_reward := 500, tile_visited_count := 2,
             new_lap := false, env_new_lap := false, trackLen := 4,
             road_color := (102, 102, 102) },
    road := [simTile 0 false, simTile 1 true, simTile 2 true, simTile 3 false],
    carTiles := [] }

/-- Raw generated points whose polar angles cross start angle 0 twice. -/
def c2Track : List TrackPoint :=
  [⟨-1, 0, 0, 0⟩, ⟨1, 0, 0, 0⟩, ⟨-1, 0, 0, 0⟩, ⟨1, 0, 0, 0⟩]

/-- A fresh 2-tile world at reset (both tiles unvisited). -/
def c7World : World :=
  { env := { reward := 0, prev_reward := 0, tile_visited_count := 0,
             new_lap := false, env_new_lap := false, trackLen := 2,
             road_color := (102, 102, 102) },
    road := [simTile 0 false, simTile 1 false],
    carTiles := [] }

/-- A 3-point finalized track for the tile-creation witnesses. -/
def c8Track : List TrackPoint :=
  [⟨0, 0, 0, 0⟩, ⟨1, 1, 1, 1⟩, ⟨2, 2, 2, 2⟩]

/-- The tiles an unrestricted tile creation over `c8Track` produces. -/
def c8Tiles : List RoadTile :=
  match create_tiles (0, 0, 0) none none c8Track with
  | .ok ts => ts
  | .error _ => []

/-- A checkpoint parameter source of 23 lines, all zero: fewer than
`2 * 12` lines but at least `12`. -/
def c4Lines : List ℚ :=
  [0, 0, 0, 0, 0, 0, 0, 0, 0, 0, 0, 0, 0, 0, 0, 0, 0, 0, 0, 0, 0, 0, 0]

/-- The reward-accounting invariant of an episode: after `n`
action-bearing frames over a `K`-tile track, the cumulative reward is
`(visited tiles) * 1000/K - n * 0.1`, the visited counter agrees with
the road, and the track/road sizes are stable. -/
def RewardInv (K : ℕ) (n : ℕ) (w : World) : Prop :=
  w.env.trackLen = K ∧ w.road.length = K ∧
  w.env.tile_visited_count = countVisited w.road ∧
  w.env.reward = (countVisited w.road : ℚ) * (1000 / (K : ℚ)) - (n : ℚ) * (1/10)

/-! ## Helper lemmas -/

/-- Both branches of `step`'s trailing `if` return the same world: the
out-of-bounds test only changes the returned `(step_reward, done)`. -/
theorem stepAction_fst (lcp : ℚ) (w : World) (contacts : List ℕ) (pos : ℚ × ℚ) :
    (stepAction lcp w contacts pos).1 =
      { contacts.foldl (beginContact lcp) w with
        env := { (contacts.foldl (beginContact lcp) w).env with
                 reward := (contacts.foldl (beginContact lcp) w).env.reward - 1/10,
                 prev_reward :=
                   (contacts.foldl (beginContact lcp) w).env.reward - 1/10 } } := by
  unfold stepAction
  dsimp only
  split <;> rfl

/-- Unfolding `beginContact` when tile `j` exists. -/
theorem beginContact_eq (lcp : ℚ) (w : World) (j : ℕ) (t : RoadTile)
    (hj : w.road.get? j = some t) :
    beginContact lcp w j =
      { env := (beginContactTile lcp w.env t).1,
        road := w.road.set j (beginContactTile lcp w.env t).2,
        carTiles := if j ∈ w.carTiles then w.carTiles else j :: w.carTiles } := by
  unfold beginContact
  rw [hj]

/-- A begin-contact on an already-visited tile does not touch the
environment fields. -/
theorem beginContactTile_env_visited (lcp : ℚ) (e : EnvSt) (t : RoadTile)
    (hv : t.road_visited = true) :
    (beginContactTile lcp e t).1 = e := by
  simp [beginContactTile, hv]

/-- A begin-contact on an unvisited tile credits `1000/len(track)` and
increments the visited count. -/
theorem beginContactTile_env_unvisited (lcp : ℚ) (e : EnvSt) (t : RoadTile)
    (hv : t.road_visited = false) :
    (beginContactTile lcp e t).1.reward = e.reward + 1000 / (e.trackLen : ℚ) ∧
    (beginContactTile lcp e t).1.tile_visited_count = e.tile_visited_count + 1 ∧
    (beginContactTile lcp e t).1.trackLen = e.trackLen := by
  simp only [beginContactTile, hv]
  split
  · simp_all
  · split <;> exact ⟨rfl, rfl, rfl⟩

/-- The tile coming out of a begin-contact is always marked visited. -/
theorem beginContactTile_snd_visited (lcp : ℚ) (e : EnvSt) (t : RoadTile) :
    (beginContactTile lcp e t).2.road_visited = true := by
  by_cases hv : t.road_visited = true
  · simp [beginContactTile, hv]
  · simp only [beginContactTile, Bool.not_eq_true] at hv ⊢
    simp only [hv]
    split
    · simp_all
    · split <;> rfl

/-! ## Claims -/

/-- C5: for every step taken with an action while the car's position
exceeds the playfield bound on either axis after the physics advance,
the step returns `done = true` and a step reward of exactly `-100`,
regardless of the per-step penalty and any tile reward credited during
that step. -/
theorem c5_out_of_bounds_step (lcp : ℚ) (w : World) (contacts : List ℕ)
    (pos : ℚ × ℚ) (h : pyAbs pos.1 > PLAYFIELD ∨ pyAbs pos.2 > PLAYFIELD) :
    (stepAction lcp w contacts pos).2 = ⟨-100, true⟩ := by
  have hc : (pyAbs pos.1 > PLAYFIELD ∨ pyAbs pos.2 > PLAYFIELD) = True := eq_true h
  simp [stepAction, hc]

/-- Witness for C5 at a concrete input. -/
theorem c5_witness :
    (stepAction 0 c7World [] (201, 0)).2 = ⟨-100, true⟩ :=
  c5_out_of_bounds_step 0 c7World [] (201, 0)
    (Or.inl (by norm_num [pyAbs, PLAYFIELD, SCALE]))

/-- C9: on an out-of-bounds terminating step, the `-100` affects only
the returned step reward: the resulting environment state (cumulative
reward and previous-reward snapshot included) is exactly the one a
normal in-bounds step would produce — the penalty and tile credits are
applied, the snapshot equals the cumulative reward, and `-100` is never
folded into the cumulative reward. -/
theorem c9_oob_cumulative (lcp : ℚ) (w : World) (contacts : List ℕ)
    (pos : ℚ × ℚ) (h : pyAbs pos.1 > PLAYFIELD ∨ pyAbs pos.2 > PLAYFIELD) :
    (stepAction lcp w contacts pos).1 = (stepAction lcp w contacts (0, 0)).1 ∧
    (stepAction lcp w contacts pos).1.env.reward =
      (contacts.foldl (beginContact lcp) w).env.reward - 1/10 ∧
    (stepAction lcp w contacts pos).1.env.prev_reward =
      (stepAction lcp w contacts pos).1.env.reward ∧
    (stepAction lcp w contacts pos).2.step_reward = -100 := by
  refine ⟨by rw [stepAction_fst, stepAction_fst], ?_, ?_, ?_⟩
  · rw [stepAction_fst]
  · rw [stepAction_fst]
  · have hc : (pyAbs pos.1 > PLAYFIELD ∨ pyAbs pos.2 > PLAYFIELD) = True := eq_true h
    simp [stepAction, hc]

/-- Witness for C9 at a concrete input. -/
theorem c9_witness :
    (stepAction 0 c7World [0] (0, 300)).1 = (stepAction 0 c7World [0] (0, 0)).1 ∧
    (stepAction 0 c7World [0] (0, 300)).1.env.reward =
      ([0].foldl (beginContact 0) c7World).env.reward - 1/10 ∧
    (stepAction 0 c7World [0] (0, 300)).1.env.prev_reward =
      (stepAction 0 c7World [0] (0, 300)).1.env.reward ∧
    (stepAction 0 c7World [0] (0, 300)).2.step_reward = -100 :=
  c9_oob_cumulative 0 c7World [0] (0, 300)
    (Or.inr (by norm_num [pyAbs, PLAYFIELD, SCALE]))

/-- C6: tile visitation crediting is idempotent — a begin-contact on a
tile already marked visited leaves the cumulative reward and the
visited-tile count unchanged; a begin-contact on an unvisited tile adds
`1000/len(track)` reward and increments the count by one; and the
second of two consecutive begin-contacts on the same tile contributes
nothing. -/
theorem c6_tile_visitation (lcp : ℚ) (w : World) (j : ℕ) (t : RoadTile)
    (hj : w.road.get? j = some t) :
    (t.road_visited = true →
      (beginContact lcp w j).env.reward = w.env.reward ∧
      (beginContact lcp w j).env.tile_visited_count = w.env.tile_visited_count) ∧
    (t.road_visited = false →
      (beginContact lcp w j).env.reward =
        w.env.reward + 1000 / (w.env.trackLen : ℚ) ∧
      (beginContact lcp w j).env.tile_visited_count =
        w.env.tile_visited_count + 1) ∧
    ((beginContact lcp (beginContact lcp w j) j).env.reward =
      (beginContact lcp w j).env.reward ∧
     (beginContact lcp (beginContact lcp w j) j).env.tile_visited_count =
      (beginContact lcp w j).env.tile_visited_count) := by
  have hlt : j < w.road.length := by
    by_contra hge
    rw [List.get?_eq_none.mpr (Nat.le_of_not_lt hge)] at hj
    exact Option.noConfusion hj
  have h1 := beginContact_eq lcp w j t hj
  refine ⟨?_, ?_, ?_⟩
  · intro hv
    rw [h1, beginContactTile_env_visited lcp w.env t hv]
    exact ⟨rfl, rfl⟩
  · intro hv
    obtain ⟨hr, hcnt, _⟩ := beginContactTile_env_unvisited lcp w.env t hv
    rw [h1]
    exact ⟨hr, hcnt⟩
  · have hj2 : (beginContact lcp w j).road.get? j =
        some (beginContactTile lcp w.env t).2 := by
      rw [h1]
      exact List.get?_set_eq_of_lt _ hlt
    have h2 := beginContact_eq lcp (beginContact lcp w j) j
      (beginContactTile lcp w.env t).2 hj2
    rw [h2, beginContactTile_env_visited lcp (beginContact lcp w j).env
      (beginContactTile lcp w.env t).2 (beginContactTile_snd_visited ..)]
    exact ⟨rfl, rfl⟩

/-- Witness for C6 at a concrete input (tile 0 of `c1World` is
unvisited, tile 1 is visited; instantiated at the unvisited tile). -/
theorem c6_witness :
    (((simTile 0 false).road_visited = true →
      (beginContact (1/2) c1World 0).env.reward = c1World.env.reward ∧
      (beginContact (1/2) c1World 0).env.tile_visited_count =
        c1World.env.tile_visited_count) ∧
    ((simTile 0 false).road_visited = false →
      (beginContact (1/2) c1World 0).env.reward =
        c1World.env.reward + 1000 / (c1World.env.trackLen : ℚ) ∧
      (beginContact (1/2) c1World 0).env.tile_visited_count =
        c1World.env.tile_visited_count + 1) ∧
    ((beginContact (1/2) (beginContact (1/2) c1World 0) 0).env.reward =
      (beginContact (1/2) c1World 0).env.reward ∧
     (beginContact (1/2) (beginContact (1/2) c1World 0) 0).env.tile_visited_count =
      (beginContact (1/2) c1World 0).env.tile_visited_count)) :=
  c6_tile_visitation (1/2) c1World 0 (simTile 0 false) (by rfl)

/-- C1 (code bug): with `lap_complete_percent = 1/2` over a 4-tile
track, tiles 1 and 2 already visited, a step whose physics advance
delivers a begin-contact on tile 0 satisfies the lap-completion
condition — the listener records it (in the mistyped detector attribute
`env_new_lap`) — yet the step returns `done = false`, because
`self.env.new_lap` is never written. -/
theorem c1_eval :
    (stepAction (1/2) c1World [0] (0, 0)).2.done = false ∧
    (stepAction (1/2) c1World [0] (0, 0)).1.env.env_new_lap = true ∧
    (stepAction (1/2) c1World [0] (0, 0)).1.env.new_lap = false ∧
    (stepAction (1/2) c1World [0] (0, 0)).1.env.tile_visited_count = 3 ∧
    c1World.env.trackLen = 4 := by
  norm_num [stepAction, beginContact, beginContactTile, c1World, simTile,
    pyAbs, PLAYFIELD, SCALE]

/-- Once the first crossing is recorded, the scan can only stop by
returning that crossing as `i2`, with `i1` at or below the current
index and at least 1. -/
theorem findLoopAux_some_bound (track : List TrackPoint) (sa : ℚ) :
    ∀ i m i1 i2, findLoopAux track sa i (some m) = some (i1, i2) →
      1 ≤ i1 ∧ i1 ≤ i ∧ i2 = m := by
  intro i
  induction i with
  | zero => intro m i1 i2 h; simp [findLoopAux] at h
  | succ n ih =>
    intro m i1 i2 h
    simp only [findLoopAux] at h
    split at h
    · obtain ⟨h1, h2⟩ := Prod.mk.injEq .. ▸ Option.some.injEq .. ▸ h
      omega
    · obtain ⟨h1, h2, h3⟩ := ih m i1 i2 h
      omega

/-- A successful backward scan started with no crossing recorded returns
`1 ≤ i1 < i2 ≤ i`. -/
theorem findLoopAux_none_bound (track : List TrackPoint) (sa : ℚ) :
    ∀ i i1 i2, findLoopAux track sa i none = some (i1, i2) →
      1 ≤ i1 ∧ i1 < i2 ∧ i2 ≤ i := by
  intro i
  induction i with
  | zero => intro i1 i2 h; simp [findLoopAux] at h
  | succ n ih =>
    intro i1 i2 h
    simp only [findLoopAux] at h
    split at h
    · obtain ⟨h1, h2, h3⟩ := findLoopAux_some_bound track sa n (n + 1) i1 i2 h
      omega
    · obtain ⟨h1, h2, h3⟩ := ih i1 i2 h
      omega

/-- C2 (amended): when the backward scan finds the two start-angle
crossings `i1 < i2`, the slice `track[i1 : i2 - 1]` kept as the
finalized track has `i2 - i1 - 1` points — one fewer than the
`i2 - i1` tile count the generator reports. -/
theorem c2_amended (track : List TrackPoint) (sa : ℚ) (i1 i2 : ℕ)
    (h : findLoop track sa = some (i1, i2)) :
    i1 < i2 ∧ i2 < track.length ∧
    (keptTrack track i1 i2).length = reportedTileCount i1 i2 - 1 := by
  unfold findLoop at h
  obtain ⟨h1, h2, h3⟩ := findLoopAux_none_bound track sa (track.length - 1) i1 i2 h
  have hlen : 1 ≤ track.length := by
    by_contra hl
    have h0 : track.length - 1 = 0 := by omega
    rw [h0] at h
    simp [findLoopAux] at h
  refine ⟨h2, by omega, ?_⟩
  unfold keptTrack reportedTileCount
  rw [List.length_take, List.length_drop]
  omega

/-- Witness for C2's amended statement at a concrete generated
sequence. -/
theorem c2_amended_witness :
    1 < 3 ∧ 3 < c2Track.length ∧
    (keptTrack c2Track 1 3).length = reportedTileCount 1 3 - 1 :=
  c2_amended c2Track 0 1 3 (by decide)

/-- C2 (counterexample): on this generated sequence the scan returns
`(i1, i2) = (1, 3)`, the generator reports a 2-tile track, yet only one
point is kept as the finalized track (and the finalization, glue test
included, succeeds with that single point). -/
theorem c2_counterexample :
    findLoop c2Track 0 = some (1, 3) ∧
    reportedTileCount 1 3 = 2 ∧
    (keptTrack c2Track 1 3).length = 1 ∧
    create_track_finalize (fun _ => 1) (fun _ => 0) c2Track 0 =
      some [⟨1, 0, 0, 0⟩] ∧
    (keptTrack c2Track 1 3).length ≠ reportedTileCount 1 3 := by
  refine ⟨by decide, by decide, by decide, ?_, by decide⟩
  norm_num [create_track_finalize, findLoop, findLoopAux, passThroughStart,
    c2Track, keptTrack, TRACK_DETAIL_STEP, SCALE]

/-- The checkpoint loop fails exactly when the iteration indices
`c, …, c+r-1` run past the end of the noise or radius column. -/
theorem loadCheckpointsAux_eq_none_iff (cosF sinF : ℚ → ℚ) (n : ℕ)
    (noise rad : List ℚ) :
    ∀ r c acc, loadCheckpointsAux cosF sinF n noise rad c r acc = none ↔
      (0 < r ∧ (noise.length < c + r ∨ rad.length < c + r)) := by
  intro r
  induction r with
  | zero => intro c acc; simp [loadCheckpointsAux]
  | succ m ih =>
    intro c acc
    simp only [loadCheckpointsAux]
    split
    · next nc rc hn hr =>
      have h1 : c < noise.length := by
        by_contra hc1
        rw [List.get?_eq_none.mpr (Nat.le_of_not_lt hc1)] at hn
        exact Option.noConfusion hn
      have h2 : c < rad.length := by
        by_contra hc2
        rw [List.get?_eq_none.mpr (Nat.le_of_not_lt hc2)] at hr
        exact Option.noConfusion hr
      rw [ih]
      omega
    · next hno =>
      simp only [true_iff]
      rcases hnn : noise.get? c with _ | nc
      · have := List.get?_eq_none.mp hnn
        exact ⟨by omega, Or.inl (by omega)⟩
      · rcases hrr : rad.get? c with _ | rc
        · have := List.get?_eq_none.mp hrr
          exact ⟨by omega, Or.inr (by omega)⟩
        · rw [List.get?_eq_getElem?] at hnn hrr
          exact ((by simpa [hnn, hrr] using hno nc rc : False)).elim

/-- C4 (amended): loading checkpoints from a parameter source fails
exactly when the source has fewer than `N = 12` lines; a source with at
least `N` but fewer than `2N` lines loads successfully, the noise and
radius blocks silently overlapping. -/
theorem c4_amended (cosF sinF : ℚ → ℚ) (lines : List ℚ) :
    load_checkpoints cosF sinF 12 lines = none ↔ lines.length < 12 := by
  unfold load_checkpoints
  rw [loadCheckpointsAux_eq_none_iff]
  simp only [List.length_take, List.length_drop]
  omega

/-- C4 (counterexample): a 23-line source — fewer than the `2N = 24`
lines the claim requires for failure — loads successfully. -/
theorem c4_counterexample :
    c4Lines.length < 2 * 12 ∧
    load_checkpoints (fun _ => 1) (fun _ => 0) 12 c4Lines ≠ none := by
  refine ⟨by decide, ?_⟩
  intro h
  unfold load_checkpoints at h
  rw [loadCheckpointsAux_eq_none_iff] at h
  revert h
  decide

/-- C3 (code bug): invoked with the unknown scenario identifier 7, the
startup block prints its warning but does not abort (the bare `exit`
expression is a no-op), and the `CarRacing` constructor then runs and
returns an initialized environment carrying the unknown identifier —
construction does not fail. -/
theorem c3_eval :
    (main_startup (some 7)).warned = true ∧
    (main_startup (some 7)).exited = false ∧
    carRacingInit (main_startup (some 7)).cornerArg (main_startup (some 7)).simPath =
      ⟨some 7, none, 0, 0, false, true⟩ := by
  decide

/-- A tile list built by `mapTiles` has one tile per index, each built
by `mkRoadTile` at the matching index. -/
theorem mapTiles_ok (rc : ℚ × ℚ × ℚ) (track : List TrackPoint) :
    ∀ (idxs : List ℤ) (tiles : List RoadTile),
      mapTiles rc track idxs = .ok tiles →
      tiles.length = idxs.length ∧
      ∀ j (hj : j < tiles.length) (hj2 : j < idxs.length),
        mkRoadTile rc track (idxs.get ⟨j, hj2⟩) = .ok (tiles.get ⟨j, hj⟩) := by
  intro idxs
  induction idxs with
  | nil =>
    intro tiles h
    simp only [mapTiles, Except.ok.injEq] at h
    subst h
    exact ⟨rfl, fun j hj hj2 => absurd hj2 (by simp)⟩
  | cons i rest ih =>
    intro tiles h
    simp only [mapTiles] at h
    split at h
    · exact Except.noConfusion h
    · next t ht =>
      split at h
      · exact Except.noConfusion h
      · next ts hts =>
        obtain rfl : t :: ts = tiles := by simpa using h
        obtain ⟨hlen, hall⟩ := ih ts hts
        refine ⟨by simp [hlen], ?_⟩
        intro j hj hj2
        cases j with
        | zero => simpa using ht
        | succ m =>
          simpa using hall m (by simpa using hj) (by simpa using hj2)

/-- A successfully built road tile stores its index and the track point
it was built from. -/
theorem mkRoadTile_ok (rc : ℚ × ℚ × ℚ) (track : List TrackPoint) (i : ℤ)
    (t : RoadTile) (h : mkRoadTile rc track i = .ok t) :
    t.idx = i ∧ pyGet track i = some t.p1 := by
  unfold mkRoadTile at h
  split at h
  · next p1 p2 hp1 hp2 =>
    obtain rfl : _ = t := by simpa using h
    exact ⟨rfl, hp1⟩
  · exact Except.noConfusion h

/-- Element `j` of Python `range(a, b)` is `a + j`. -/
theorem pyRange_get (a b : ℤ) (j : ℕ) (hj : j < (pyRange a b).length) :
    (pyRange a b).get ⟨j, hj⟩ = a + (j : ℤ) := by
  unfold pyRange at hj ⊢
  simp [List.getElem_map, List.getElem_range]

/-- C8: for every successful tile creation — restricted by a scenario or
not — the stable index stored on each created road tile equals the index
of the track point it was built from in the original unsliced track, and
along the emitted tiles the stable indices increase by exactly 1 from
the scenario range start (or from 0 when unrestricted). -/
theorem c8_tile_indices (rc : ℚ × ℚ × ℚ) (selfC : Option ℤ)
    (globalC : Option (Option ℤ)) (track : List TrackPoint)
    (tiles : List RoadTile)
    (h : create_tiles rc selfC globalC track = .ok tiles) :
    ∀ j (hj : j < tiles.length),
      (tiles.get ⟨j, hj⟩).idx =
        (if restrictTiles selfC then scenarioStart globalC else 0) + (j : ℤ) ∧
      pyGet track (tiles.get ⟨j, hj⟩).idx = some (tiles.get ⟨j, hj⟩).p1 := by
  unfold create_tiles at h
  split at h
  · exact Except.noConfusion h
  · next idxs hrange =>
    obtain ⟨hlen, hall⟩ := mapTiles_ok rc track idxs tiles h
    intro j hj
    have hj2 : j < idxs.length := by omega
    obtain ⟨hidx, hp⟩ := mkRoadTile_ok rc track (idxs.get ⟨j, hj2⟩) _ (hall j hj hj2)
    refine ⟨?_, by rw [hidx]; exact hp⟩
    rw [hidx]
    unfold tileRange at hrange
    by_cases hres : restrictTiles selfC = true
    · rw [if_pos hres] at hrange
      rw [if_pos hres]
      split at hrange
      · exact Except.noConfusion hrange
      · next g =>
        split at hrange
        · exact Except.noConfusion hrange
        · next ab hcr =>
          obtain rfl : pyRange ab.1 ab.2 = idxs := by simpa using hrange
          rw [pyRange_get]
          simp [scenarioStart, hcr]
    · rw [if_neg hres] at hrange
      rw [if_neg hres]
      obtain rfl : (List.range track.length).map Int.ofNat = idxs := by
        simpa using hrange
      simp [List.getElem_map, List.getElem_range]

/-- Witness for C8 on an unrestricted 3-point track, instantiated at the
second emitted tile. -/
theorem c8_witness :
    (c8Tiles.get ⟨1, by decide⟩).idx =
      (if restrictTiles none then scenarioStart none else 0) + (1 : ℤ) ∧
    pyGet c8Track (c8Tiles.get ⟨1, by decide⟩).idx =
      some (c8Tiles.get ⟨1, by decide⟩).p1 :=
  c8_tile_indices (0, 0, 0) none none c8Track c8Tiles (by rfl) 1 (by decide)

/-- `mapTiles` can only fail with `IndexError`, never `NameError`. -/
theorem mapTiles_ne_nameError (rc : ℚ × ℚ × ℚ) (track : List TrackPoint) :
    ∀ idxs, mapTiles rc track idxs ≠ .error .nameError := by
  intro idxs
  induction idxs with
  | nil => simp [mapTiles]
  | cons i rest ih =>
    simp only [mapTiles]
    split
    · next e he =>
      unfold mkRoadTile at he
      split at he
      · exact Except.noConfusion he
      · obtain rfl : PyErr.indexError = e := by simpa using he
        simp
    · split
      · next e he2 =>
        intro hcontra
        obtain rfl : e = PyErr.nameError := by simpa using hcontra
        exact ih he2
      · simp

/-- C10: when the environment is used as a library (the script-level
global `corner_num` is not defined) with an instance identifier greater
than 10, the tile-creation phase resolves the scenario range through the
global name and raises `NameError`; when the global is defined — as the
command-line entry point does — tile creation never raises `NameError`. -/
theorem c10_global_corner_name (selfC : ℤ) (rc : ℚ × ℚ × ℚ)
    (track : List TrackPoint) (h : 10 < selfC) :
    create_tiles rc (some selfC) none track = .error .nameError ∧
    ∀ gk : Option ℤ,
      create_tiles rc (some selfC) (some gk) track ≠ .error .nameError := by
  have hres : restrictTiles (some selfC) = true := by
    show (if selfC = 0 then false else decide (selfC > 10)) = true
    rw [if_neg (by omega)]
    exact decide_eq_true h
  constructor
  · unfold create_tiles tileRange
    simp [hres]
  · intro gk
    unfold create_tiles tileRange
    rcases hcr : cornersRange gk with _ | ab
    · simp [hres, hcr]
    · simpa [hres, hcr] using mapTiles_ne_nameError rc track (pyRange ab.1 ab.2)

/-- Witness for C10 at a concrete instance identifier. -/
theorem c10_witness :
    create_tiles (0, 0, 0) (some 85) none [] = .error .nameError :=
  (c10_global_corner_name 85 (0, 0, 0) [] (by decide)).1

/-- Setting a position to an element with the same predicate value
keeps `countP`. -/
theorem countP_set_same {α : Type} (p : α → Bool) :
    ∀ (l : List α) (j : ℕ) (a b : α), l.get? j = some a → p b = p a →
      (l.set j b).countP p = l.countP p := by
  intro l
  induction l with
  | nil => intro j a b hj _; simp at hj
  | cons x xs ih =>
    intro j a b hj hp
    cases j with
    | zero =>
      obtain rfl : x = a := by simpa using hj
      simp [List.countP_cons, hp]
    | succ n =>
      have hj2 : xs.get? n = some a := by simpa using hj
      simp [List.countP_cons, ih n a b hj2 hp]

/-- Replacing an element on which the predicate fails by one on which it
holds raises `countP` by one. -/
theorem countP_set_incr {α : Type} (p : α → Bool) :
    ∀ (l : List α) (j : ℕ) (a b : α), l.get? j = some a →
      p a = false → p b = true →
      (l.set j b).countP p = l.countP p + 1 := by
  intro l
  induction l with
  | nil => intro j a b hj _ _; simp at hj
  | cons x xs ih =>
    intro j a b hj hpa hpb
    cases j with
    | zero =>
      obtain rfl : x = a := by simpa using hj
      simp [List.countP_cons, hpa, hpb]
    | succ n =>
      have hj2 : xs.get? n = some a := by simpa using hj
      simp [List.countP_cons, ih n a b hj2 hpa hpb]
      omega

/-- One begin-contact callback either leaves reward, visited count and
road-visited count unchanged, or raises all three together by one tile's
worth; track length and road size never change. -/
theorem beginContact_step (lcp : ℚ) (w : World) (j : ℕ) :
    (beginContact lcp w j).env.trackLen = w.env.trackLen ∧
    (beginContact lcp w j).road.length = w.road.length ∧
    ((beginContact lcp w j).env.reward = w.env.reward ∧
     (beginContact lcp w j).env.tile_visited_count = w.env.tile_visited_count ∧
     countVisited (beginContact lcp w j).road = countVisited w.road ∨
     (beginContact lcp w j).env.reward =
       w.env.reward + 1000 / (w.env.trackLen : ℚ) ∧
     (beginContact lcp w j).env.tile_visited_count =
       w.env.tile_visited_count + 1 ∧
     countVisited (beginContact lcp w j).road = countVisited w.road + 1) := by
  cases hj : w.road.get? j with
  | none =>
    unfold beginContact
    rw [hj]
    exact ⟨rfl, rfl, Or.inl ⟨rfl, rfl, rfl⟩⟩
  | some t =>
    rw [beginContact_eq lcp w j t hj]
    have hsnd := beginContactTile_snd_visited lcp w.env t
    cases hv : t.road_visited with
    | true =>
      rw [beginContactTile_env_visited lcp w.env t hv]
      refine ⟨rfl, by simp, Or.inl ⟨rfl, rfl, ?_⟩⟩
      exact countP_set_same _ w.road j t _ hj (by rw [hsnd, hv])
    | false =>
      obtain ⟨hr, hc, ht⟩ := beginContactTile_env_unvisited lcp w.env t hv
      refine ⟨ht, by simp, Or.inr ⟨hr, hc, ?_⟩⟩
      exact countP_set_incr _ w.road j t _ hj hv hsnd

/-- `RewardInv` is preserved by a single contact callback. -/
theorem beginContact_rewardInv (lcp : ℚ) (K n : ℕ) (w : World) (j : ℕ)
    (h : RewardInv K n w) : RewardInv K n (beginContact lcp w j) := by
  obtain ⟨h1, h2, h3, h4⟩ := h
  obtain ⟨ht, hl, hcase⟩ := beginContact_step lcp w j
  rcases hcase with ⟨hr, hc, hv⟩ | ⟨hr, hc, hv⟩
  · exact ⟨by rw [ht, h1], by rw [hl, h2], by rw [hc, hv, h3], by rw [hr, hv, h4]⟩
  · refine ⟨by rw [ht, h1], by rw [hl, h2], by rw [hc, hv, h3], ?_⟩
    rw [hr, hv, h4, h1]
    push_cast
    ring

/-- `RewardInv` is preserved by all the contact callbacks of one
physics advance. -/
theorem foldl_beginContact_rewardInv (lcp : ℚ) (K n : ℕ) :
    ∀ (contacts : List ℕ) (w : World), RewardInv K n w →
      RewardInv K n (contacts.foldl (beginContact lcp) w) := by
  intro contacts
  induction contacts with
  | nil => intro w h; exact h
  | cons c cs ih => intro w h; exact ih _ (beginContact_rewardInv lcp K n w c h)

/-- One action-bearing step keeps the invariant, frame count advanced. -/
theorem stepAction_rewardInv (lcp : ℚ) (K n : ℕ) (w : World) (cs : List ℕ)
    (pos : ℚ × ℚ) (h : RewardInv K n w) :
    RewardInv K (n + 1) (stepAction lcp w cs pos).1 := by
  rw [stepAction_fst]
  obtain ⟨h1, h2, h3, h4⟩ := foldl_beginContact_rewardInv lcp K n cs w h
  refine ⟨h1, h2, h3, ?_⟩
  show (cs.foldl (beginContact lcp) w).env.reward - 1 / 10 = _
  rw [h4]
  push_cast
  ring

/-- The invariant after running a frame sequence. -/
theorem runEpisode_rewardInv (lcp : ℚ) (K : ℕ) :
    ∀ (frames : List Frame) (w : World) (n : ℕ), RewardInv K n w →
      RewardInv K (n + frames.length) (runEpisode lcp w frames) := by
  intro frames
  induction frames with
  | nil => intro w n h; simpa [runEpisode] using h
  | cons f fs ih =>
    intro w n h
    have h2 := ih _ (n + 1) (stepAction_rewardInv lcp K n w f.contacts f.pos h)
    have harith : n + (f :: fs).length = n + 1 + fs.length := by
      simp [List.length_cons]
      omega
    rw [harith, runEpisode]
    exact h2

/-- C7: over a `K`-tile track starting from reset, if after `F`
action-bearing frames every road tile has been visited and the car
never left the playfield, the accumulated reward is exactly
`1000 - 0.1·F` (each frame contributes `-0.1`, each first tile visit
`1000/K`; exact over `ℚ`). -/
theorem c7_reward_accounting (lcp : ℚ) (K : ℕ) (hK : 0 < K)
    (rc : ℚ × ℚ × ℚ) (road0 : List RoadTile) (hlen : road0.length = K)
    (hunv : ∀ t ∈ road0, t.road_visited = false) (frames : List Frame)
    (hin : ∀ f ∈ frames, pyAbs f.pos.1 ≤ PLAYFIELD ∧ pyAbs f.pos.2 ≤ PLAYFIELD)
    (hall : ∀ t ∈ (runEpisode lcp
      ⟨⟨0, 0, 0, false, false, K, rc⟩, road0, []⟩ frames).road,
      t.road_visited = true) :
    (runEpisode lcp ⟨⟨0, 0, 0, false, false, K, rc⟩, road0, []⟩ frames).env.reward =
      1000 - (frames.length : ℚ) * (1 / 10) := by
  have hcv0 : countVisited road0 = 0 := by
    rw [countVisited, List.countP_eq_zero]
    intro a ha
    simp [hunv a ha]
  have h0 : RewardInv K 0 ⟨⟨0, 0, 0, false, false, K, rc⟩, road0, []⟩ := by
    refine ⟨rfl, hlen, ?_, ?_⟩
    · show (0 : ℕ) = countVisited road0
      rw [hcv0]
    · show (0 : ℚ) = _
      rw [hcv0]
      push_cast
      ring
  obtain ⟨h1, h2, h3, h4⟩ := runEpisode_rewardInv lcp K frames _ 0 h0
  have hcv : countVisited (runEpisode lcp
      ⟨⟨0, 0, 0, false, false, K, rc⟩, road0, []⟩ frames).road = K := by
    rw [countVisited, List.countP_eq_length.mpr ?_]
    · exact h2
    · intro a ha
      simp [hall a ha]
  rw [h4, hcv]
  have hK0 : (K : ℚ) ≠ 0 := Nat.cast_ne_zero.mpr (by omega)
  push_cast
  field_simp

/-- Witness for C7 on a 1-tile track visited in a single frame. -/
theorem c7_witness :
    (runEpisode 2 ⟨⟨0, 0, 0, false, false, 1, (102, 102, 102)⟩,
        [simTile 0 false], []⟩ [⟨[0], (0, 0)⟩]).env.reward =
      1000 - (([(⟨[0], (0, 0)⟩ : Frame)].length : ℕ) : ℚ) * (1 / 10) :=
  c7_reward_accounting 2 1 (by decide) (102, 102, 102) [simTile 0 false] (by decide)
    (by decide) [⟨[0], (0, 0)⟩]
    (by
      intro f hf
      rw [List.mem_singleton] at hf
      subst hf
      exact ⟨by norm_num [pyAbs, PLAYFIELD, SCALE],
             by norm_num [pyAbs, PLAYFIELD, SCALE]⟩)
    (by
      intro t ht
      norm_num [runEpisode, stepAction, beginContact, beginContactTile,
        simTile, pyAbs, PLAYFIELD, SCALE] at ht
      simp [ht])

end CarRacingSpec
